import Mathlib

/-!
Verification development for the Ollama batch image captioning tool
(src/src/main.rs). The Rust program is shallowly embedded: JSON values
become an inductive type, the per-item pipeline becomes explicit state
passing, external collaborators (the HTTP endpoint, the serde JSON text
parser, the filesystem) become explicit parameters, and Rust panics
(expect / unwrap) become an error result that aborts the run.
-/

/-- JSON values, modelling serde_json::Value. Numbers are modelled as
integers (no claim inspects numeric contents); object fields keep their
textual order and are looked up by first match, as serde maps behave
after deduplicating parse. -/
inductive Json where
  | null : Json
  | bool (b : Bool) : Json
  | num (n : Int) : Json
  | str (s : String) : Json
  | arr (items : List Json) : Json
  | obj (fields : List (String × Json)) : Json

/-- Field lookup in an object field list, first match wins. -/
def lookupField : List (String × Json) → String → Option Json
  | [], _ => none
  | (k, v) :: rest, key => if k = key then some v else lookupField rest key

/-- Value::get with a string index: key lookup on objects, none on
every other variant. -/
def Json.get (v : Json) (key : String) : Option Json :=
  match v with
  | .obj fields => lookupField fields key
  | _ => none

/-- Value::as_str: the payload of a string variant, none otherwise. -/
def Json.asStr : Json → Option String
  | .str s => some s
  | _ => none

/-- Whether a value is an array variant (Value::as_array succeeds). -/
def Json.isArr : Json → Bool
  | .arr _ => true
  | _ => false

/-- An input file as the pipeline sees it: its base name (file_stem),
its extension as returned by Path::extension (none when absent), whether
opening and reading it succeeds, the io error text when it does not, and
its raw bytes as a string. The base64 transcoding done by the external
base64 crate is an injective encoding that no claim inspects, so the
encoded payload is modelled by the bytes it encodes. -/
structure ImgFile where
  stem : String
  ext : Option String
  readable : Bool
  readErr : String
  bytes : String

/-- ASCII lowercasing of one character. -/
def lowerChar (c : Char) : Char :=
  if 65 ≤ c.toNat ∧ c.toNat ≤ 90 then Char.ofNat (c.toNat + 32) else c

/-- str::to_lowercase as the pipeline uses it: file extensions are
ASCII, where Unicode and ASCII lowercasing agree. Defined over the
character list so that concrete runs reduce definitionally. -/
def lowerStr (s : String) : String := ⟨s.data.map lowerChar⟩

/-- Extension to media type, the fixed match table inside
encode_image_to_base64 (main.rs lines 24-30). Note webp is absent. -/
def mimeFor : String → Option String
  | "jpg" => some "image/jpeg"
  | "jpeg" => some "image/jpeg"
  | "png" => some "image/png"
  | "bmp" => some "image/bmp"
  | "gif" => some "image/gif"
  | _ => none

/-- encode_image_to_base64 (main.rs lines 12-34): open and read the
file (io failure is an error), lowercase the extension (empty string
when absent), consult the media type table, and return the encoded
payload with the media type, or an unsupported-extension error. -/
def encode_image_to_base64 (f : ImgFile) : Except String (String × String) :=
  if f.readable = false then
    .error ("Failed to open file: " ++ f.readErr)
  else
    let ext := lowerStr (f.ext.getD "")
    match mimeFor ext with
    | some m => .ok (f.bytes, m)
    | none => .error ("Unsupported image extension: ." ++ ext)

/-- Extensions accepted by the discovery filter (main.rs line 191):
note that this set DOES include webp, unlike the encoder table. -/
def supportedExt : List String := ["jpg", "jpeg", "png", "bmp", "gif", "webp"]

/-- Output path for a base name: output_dir joined with
base_name ++ suffix ++ ".json" (main.rs lines 204-205 and 291-292; both
sites compute exactly this shape from file_stem). -/
def outputPath (outputDir stem suffix : String) : String :=
  outputDir ++ "/" ++ stem ++ suffix ++ ".json"

/-- Run configuration: the CLI values the batch loop consumes. -/
structure Config where
  schemaRequested : Bool
  skipExisting : Bool
  batchSize : Nat
  suffix : String
  outputDir : String

/-- Discovery filter (main.rs lines 195-218): keep an entry when its
extension exists and its lowercase form is in the supported set, and,
when skip-existing is on, when its computed output path does not already
exist. -/
def discoverFiles (cfg : Config) (existing : List String) (entries : List ImgFile) :
    List ImgFile :=
  entries.filter fun f =>
    match f.ext with
    | none => false
    | some e =>
      let ext := lowerStr e
      supportedExt.contains ext &&
        (!cfg.skipExisting
          || !(existing.contains (outputPath cfg.outputDir f.stem cfg.suffix)))

/-- Structural helper for chunksList: the fuel argument bounds the
recursion depth and at every use is at least the list length, so the
zero-fuel arm on a nonempty list is unreachable. Fuel makes the
recursion structural, so concrete runs evaluate definitionally. -/
def chunksAux (b : Nat) : Nat → List α → List (List α)
  | _, [] => []
  | 0, _ :: _ => []
  | fuel + 1, x :: xs =>
    (x :: xs.take (b - 1)) :: chunksAux b fuel (xs.drop (b - 1))

/-- slice::chunks for a chunk size of at least one: consecutive slices
of size b, the last one possibly shorter (main.rs line 229). Rust panics
on chunk size 0; every theorem below that uses this definition assumes
b is at least 1, matching that precondition. -/
def chunksList (b : Nat) (l : List α) : List (List α) :=
  chunksAux b l.length l

theorem chunksAux_flatten (b : Nat) (fuel : Nat) :
    ∀ (l : List α), l.length ≤ fuel → (chunksAux b fuel l).flatten = l := by
  induction fuel with
  | zero =>
    intro l hl
    cases l with
    | nil => simp [chunksAux]
    | cons x xs => simp at hl
  | succ f ih =>
    intro l hl
    cases l with
    | nil => simp [chunksAux]
    | cons x xs =>
      simp only [List.length_cons] at hl
      have hd : (xs.drop (b - 1)).length ≤ f := by
        simp only [List.length_drop]
        omega
      simp only [chunksAux, List.flatten_cons, List.cons_append]
      rw [ih _ hd, List.take_append_drop]

theorem chunksList_flatten (b : Nat) (l : List α) :
    (chunksList b l).flatten = l :=
  chunksAux_flatten b l.length l (Nat.le_refl _)

theorem chunksAux_mem_length (b : Nat) (hb : 1 ≤ b) (fuel : Nat) :
    ∀ (l : List α), ∀ c ∈ chunksAux b fuel l, c.length ≤ b := by
  induction fuel with
  | zero =>
    intro l c hc
    cases l <;> simp [chunksAux] at hc
  | succ f ih =>
    intro l c hc
    cases l with
    | nil => simp [chunksAux] at hc
    | cons x xs =>
      simp only [chunksAux, List.mem_cons] at hc
      rcases hc with hc | hc
      · subst hc
        simp only [List.length_cons, List.length_take]
        omega
      · exact ih _ c hc

theorem chunksAux_length (b : Nat) (hb : 1 ≤ b) (fuel : Nat) :
    ∀ (l : List α), l.length ≤ fuel →
      (chunksAux b fuel l).length = (l.length + b - 1) / b := by
  obtain ⟨c, rfl⟩ : ∃ c, b = c + 1 := ⟨b - 1, by omega⟩
  have e1 : ∀ m : Nat, m + (c + 1) - 1 = m + c := fun m => by omega
  induction fuel with
  | zero =>
    intro l hl
    cases l with
    | nil =>
      simp only [chunksAux, List.length_nil, Nat.zero_add, e1]
      exact (Nat.div_eq_of_lt (by omega)).symm
    | cons x xs => simp at hl
  | succ f ih =>
    intro l hl
    cases l with
    | nil =>
      simp only [chunksAux, List.length_nil, Nat.zero_add, e1]
      exact (Nat.div_eq_of_lt (by omega)).symm
    | cons x xs =>
      simp only [List.length_cons] at hl
      have hd : (xs.drop c).length ≤ f := by
        simp only [List.length_drop]
        omega
      simp only [chunksAux, List.length_cons, Nat.add_sub_cancel]
      rw [ih _ hd]
      simp only [List.length_drop, e1]
      rcases Nat.lt_or_ge xs.length c with h | h
      · have hL : xs.length - c = 0 := Nat.sub_eq_zero_of_le (Nat.le_of_lt h)
        have hd1 : (0 + c) / (c + 1) = 0 := Nat.div_eq_of_lt (by omega)
        have hd2 : (xs.length + 1 + c) / (c + 1) = 1 :=
          Nat.div_eq_of_lt_le (by omega) (by omega)
        rw [hL, hd1, hd2]
      · rw [Nat.sub_add_cancel h]
        have h1 : xs.length + 1 + c = xs.length + (c + 1) := by omega
        rw [h1, Nat.add_div_right _ (Nat.succ_pos c)]

theorem chunksList_mem_length (b : Nat) (hb : 1 ≤ b) (l : List α) :
    ∀ c ∈ chunksList b l, c.length ≤ b :=
  chunksAux_mem_length b hb l.length l

theorem chunksList_length (b : Nat) (hb : 1 ≤ b) (l : List α) :
    (chunksList b l).length = (l.length + b - 1) / b :=
  chunksAux_length b hb l.length l (Nat.le_refl _)

/-- Log events emitted during a run: error! and warn! calls. -/
inductive LogEvent where
  | errorLog (msg : String) : LogEvent
  | warnLog (msg : String) : LogEvent

/-- What the endpoint does on one call: the request never leaves
(transport failure), or an HTTP response arrives, carrying the display
form of its status line (for example "500 Internal Server Error"),
whether the status is a success status, and the raw body text. -/
inductive Reply where
  | transportError (msg : String) : Reply
  | httpResp (statusLine : String) (isSuccess : Bool) (body : String) : Reply

/-- call_ollama_structured (main.rs lines 36-84), from the point where
the send completes; request building has no effect a claim observes.
The serde_json text parser is the external parameter parse. Returns the
log events emitted by the call together with its result: a transport
failure maps to an error, a non-success status logs the body and maps
to an error mentioning only the status line, and a success status
parses the body. -/
def call_ollama_structured (parse : String → Except String Json) (r : Reply) :
    List LogEvent × Except String Json :=
  match r with
  | .transportError e => ([], .error ("HTTP request failed: " ++ e))
  | .httpResp statusLine ok body =>
    if ok then
      match parse body with
      | .ok v => ([], .ok v)
      | .error e => ([], .error ("Failed to parse JSON: " ++ e))
    else
      ([.errorLog ("Server said: " ++ body)],
       .error ("HTTP error: " ++ statusLine))

/-- Response extraction (main.rs lines 260-273): a "messages" field
that is an array maps to its entries, each replaced by its "content"
field or an empty string; a "messages" field of any other shape maps to
the empty list (as_array().map(...).unwrap_or_default()); otherwise a
"message" field maps to its single "content" (or empty string);
otherwise the whole response is the single content value. -/
def extractContents (resp : Json) : List Json :=
  match resp.get "messages" with
  | some messages =>
    match messages with
    | .arr items => items.map (fun m => (m.get "content").getD (Json.str ""))
    | _ => []
  | none =>
    match resp.get "message" with
    | some message => [(message.get "content").getD (Json.str "")]
    | none => [resp]

/-- serde_json::from_value::<Value> applied to a Value: deserializing a
self-describing JSON value back into Value always succeeds with the
same value, so this is total. The Err arm it feeds in the source
(main.rs lines 279-285) is therefore unreachable. -/
def fromValueValue (v : Json) : Except String Json := .ok v

/-- output_data resolution (main.rs lines 276-289): when a schema was
requested, re-deserialize the content through from_value, warning and
wrapping the raw content on failure (an unreachable arm, see
fromValueValue); otherwise the content itself. Returns the value and
the warnings emitted. -/
def resolveOutput (schemaRequested : Bool) (name : String) (content : Json) :
    Json × List LogEvent :=
  if schemaRequested then
    match fromValueValue content with
    | .ok val => (val, [])
    | .error _ =>
      (content,
       [.warnLog ("Response for " ++ name ++
          " is not valid JSON. Storing raw text.")])
  else (content, [])

/-- Mutable state threaded through one run: output files written so far
as path-value pairs, log events so far, the progress bar position, and
how many endpoint calls have been made (used to index replies). -/
structure RunState where
  written : List (String × Json)
  logs : List LogEvent
  progress : Nat
  callIdx : Nat

/-- The world a run interacts with: which output paths already exist
before the run, the reply the endpoint gives to the n-th call, and
whether File::create and write_all succeed at a given path. -/
structure World where
  existingOutputs : List String
  replies : Nat → Reply
  createOk : String → Bool
  writeOk : String → Bool

/-- Outcome of one run: normal completion, or a process abort through a
panic (expect or unwrap in the source), with the state at that moment
and the panic message. -/
inductive RunResult where
  | completed (st : RunState) : RunResult
  | panicked (st : RunState) (msg : String) : RunResult

/-- Result of the per-batch encoding loop (main.rs lines 230-244):
the accumulated payloads, the base names that encoded, the error logs
for items that did not, and how many times pb.inc(1) ran. -/
structure EncodeOut where
  images : List String
  names : List String
  logs : List LogEvent
  incs : Nat

/-- Display form of an input path in log messages. The constant input
directory prefix is omitted; it plays no role in any claim. -/
def displayPath (f : ImgFile) : String :=
  f.stem ++ (match f.ext with | some e => "." ++ e | none => "")

/-- The encoding loop over one batch (main.rs lines 233-244): images
that encode push their payload and base name; failures log an error
naming the path and advance the progress bar by one. -/
def encodePhase : List ImgFile → EncodeOut
  | [] => ⟨[], [], [], 0⟩
  | f :: rest =>
    let r := encodePhase rest
    match encode_image_to_base64 f with
    | .ok (b64, _mime) => ⟨b64 :: r.images, f.stem :: r.names, r.logs, r.incs⟩
    | .error e =>
      ⟨r.images, r.names,
       .errorLog ("Error encoding " ++ displayPath f ++ ": " ++ e) :: r.logs,
       r.incs + 1⟩

/-- The writer loop (main.rs lines 275-305) over the extracted content
values, carrying the enumeration index i. Each step indexes
batch_names[i] (a panic when out of bounds), resolves output_data,
creates the output file (expect: panic on failure), unwraps
output_data.as_str() (a panic when the value is not a string), re-parses
that string falling back to output_data itself, and writes the file
(expect: panic on failure). A panic aborts with the state so far. -/
def writeLoop (parse : String → Except String Json) (cfg : Config) (w : World)
    (names : List String) :
    List Json → Nat → RunState → Except (RunState × String) RunState
  | [], _, st => .ok st
  | content :: rest, i, st =>
    match names.get? i with
    | none => .error (st, "index out of bounds")
    | some name =>
      let rw := resolveOutput cfg.schemaRequested name content
      let st1 : RunState := { st with logs := st.logs ++ rw.2 }
      let path := outputPath cfg.outputDir name cfg.suffix
      if w.createOk path = false then
        .error (st1, "Failed to create output file")
      else
        match rw.1.asStr with
        | none => .error (st1, "called Option::unwrap on a None value")
        | some s =>
          let jsonVal := ((parse s).toOption).getD rw.1
          if w.writeOk path = false then
            .error (st1, "Failed to write output file")
          else
            writeLoop parse cfg w names rest (i + 1)
              { st1 with written := st1.written ++ [(path, jsonVal)] }

/-- One iteration of the batch loop (main.rs lines 229-312): run the
encoding loop, continue early when nothing encoded (skipping the final
pb.inc), otherwise call the endpoint; a call failure logs one batch
error; a call success extracts contents and runs the writer loop; in
both of those cases the progress bar then advances by the full batch
length. -/
def processBatch (parse : String → Except String Json) (cfg : Config)
    (w : World) (batch : List ImgFile) (st : RunState) :
    Except (RunState × String) RunState :=
  let enc := encodePhase batch
  let st1 : RunState :=
    { st with logs := st.logs ++ enc.logs, progress := st.progress + enc.incs }
  if enc.images.isEmpty then .ok st1
  else
    let callOut := call_ollama_structured parse (w.replies st1.callIdx)
    let st2 : RunState :=
      { st1 with logs := st1.logs ++ callOut.1, callIdx := st1.callIdx + 1 }
    match callOut.2 with
    | .error e =>
      .ok { st2 with
              logs := st2.logs ++ [.errorLog ("Error processing batch: " ++ e)],
              progress := st2.progress + batch.length }
    | .ok resp =>
      match writeLoop parse cfg w enc.names (extractContents resp) 0 st2 with
      | .ok st3 => .ok { st3 with progress := st3.progress + batch.length }
      | .error p => .error p

/-- The batch loop folded over all batches; a panic in one batch aborts
the whole run at that point. -/
def runBatches (parse : String → Except String Json) (cfg : Config)
    (w : World) : List (List ImgFile) → RunState → RunResult
  | [], st => .completed st
  | b :: rest, st =>
    match processBatch parse cfg w b st with
    | .ok st2 => runBatches parse cfg w rest st2
    | .error p => .panicked p.1 p.2

/-- One whole run (main.rs main, lines 189-314): discover and filter
the files, split them into batches, and fold the batch loop from the
empty starting state. -/
def runPipeline (parse : String → Except String Json) (cfg : Config)
    (w : World) (entries : List ImgFile) : RunResult :=
  let files := discoverFiles cfg w.existingOutputs entries
  runBatches parse cfg w (chunksList cfg.batchSize files) ⟨[], [], 0, 0⟩

/-- Whether an Except result is a success. -/
def isOkResult (e : Except String (String × String)) : Bool :=
  match e with
  | .ok _ => true
  | .error _ => false

theorem encode_shape (f : ImgFile) :
    encode_image_to_base64 f = .error ("Failed to open file: " ++ f.readErr) ∨
    encode_image_to_base64 f =
      .error ("Unsupported image extension: ." ++ lowerStr (f.ext.getD "")) ∨
    ∃ m, mimeFor (lowerStr (f.ext.getD "")) = some m ∧
      encode_image_to_base64 f = .ok (f.bytes, m) := by
  unfold encode_image_to_base64
  by_cases hr : f.readable = false
  · simp [hr]
  · simp only [hr, if_false]
    cases hm : mimeFor (lowerStr (f.ext.getD "")) with
    | none => simp [hm]
    | some m => simp [hm]

theorem encode_isOk_eq {f : ImgFile}
    (h : isOkResult (encode_image_to_base64 f) = true) :
    ∃ m, encode_image_to_base64 f = .ok (f.bytes, m) := by
  rcases encode_shape f with he | he | ⟨m, _, he⟩
  · rw [he] at h
    simp [isOkResult] at h
  · rw [he] at h
    simp [isOkResult] at h
  · exact ⟨m, he⟩

theorem encodePhase_images_names (batch : List ImgFile) :
    (encodePhase batch).images.length = (encodePhase batch).names.length := by
  induction batch with
  | nil => rfl
  | cons f rest ih =>
    simp only [encodePhase]
    cases h : encode_image_to_base64 f with
    | ok v =>
      cases v
      simp only [List.length_cons, ih]
    | error e => simpa using ih

theorem encodePhase_count (batch : List ImgFile) :
    (encodePhase batch).names.length + (encodePhase batch).logs.length
      = batch.length := by
  induction batch with
  | nil => rfl
  | cons f rest ih =>
    simp only [encodePhase]
    cases h : encode_image_to_base64 f with
    | ok v =>
      cases v
      simp only [List.length_cons]
      omega
    | error e =>
      simp only [List.length_cons]
      omega

theorem encodePhase_all_ok (batch : List ImgFile)
    (h : ∀ f ∈ batch, isOkResult (encode_image_to_base64 f) = true) :
    encodePhase batch =
      ⟨batch.map ImgFile.bytes, batch.map ImgFile.stem, [], 0⟩ := by
  induction batch with
  | nil => rfl
  | cons f rest ih =>
    obtain ⟨m, hm⟩ := encode_isOk_eq (h f (List.mem_cons_self f rest))
    have hrest := ih (fun g hg => h g (List.mem_cons_of_mem f hg))
    simp only [encodePhase, hm, hrest, List.map_cons]

theorem resolveOutput_eq (b : Bool) (name : String) (content : Json) :
    resolveOutput b name content = (content, []) := by
  cases b <;> simp [resolveOutput, fromValueValue]

theorem writeLoop_all_ok (parse : String → Except String Json) (cfg : Config)
    (w : World) (names : List String) :
    ∀ (contents : List Json) (i : Nat) (st : RunState),
      names.length = i + contents.length →
      (∀ c ∈ contents, (Json.asStr c).isSome = true) →
      (∀ n ∈ names.drop i,
        w.createOk (outputPath cfg.outputDir n cfg.suffix) = true ∧
        w.writeOk (outputPath cfg.outputDir n cfg.suffix) = true) →
      ∃ newFiles,
        writeLoop parse cfg w names contents i st =
          .ok { st with written := st.written ++ newFiles } ∧
        newFiles.map Prod.fst =
          (names.drop i).map (fun n => outputPath cfg.outputDir n cfg.suffix) := by
  intro contents
  induction contents with
  | nil =>
    intro i st hlen _ _
    simp only [List.length_nil, Nat.add_zero] at hlen
    have hdrop : names.drop i = [] := List.drop_eq_nil_of_le (by omega)
    refine ⟨[], ?_, by simp [hdrop]⟩
    simp [writeLoop]
  | cons content rest ih =>
    intro i st hlen hstr hfs
    have hi : i < names.length := by
      simp only [List.length_cons] at hlen
      omega
    have hget : names.get? i = some names[i] := by
      rw [List.get?_eq_getElem?]
      exact List.getElem?_eq_getElem hi
    have hdrop : names.drop i = names[i] :: names.drop (i + 1) :=
      List.drop_eq_getElem_cons hi
    obtain ⟨hcreate, hwrite⟩ :=
      hfs names[i] (by rw [hdrop]; exact List.mem_cons_self _ _)
    obtain ⟨s, hs⟩ :=
      Option.isSome_iff_exists.mp (hstr content (List.mem_cons_self _ _))
    have hstep : writeLoop parse cfg w names (content :: rest) i st =
        writeLoop parse cfg w names rest (i + 1)
          { st with written := st.written ++
              [(outputPath cfg.outputDir names[i] cfg.suffix,
                ((parse s).toOption).getD content)] } := by
      simp only [writeLoop, hget, resolveOutput_eq, hs, hcreate, hwrite,
        List.append_nil]
      simp
    obtain ⟨nf, hrec, hmap⟩ := ih (i + 1)
      { st with written := st.written ++
          [(outputPath cfg.outputDir names[i] cfg.suffix,
            ((parse s).toOption).getD content)] }
      (by simp only [List.length_cons] at hlen; omega)
      (fun c hc => hstr c (List.mem_cons_of_mem _ hc))
      (fun n hn => hfs n (by rw [hdrop]; exact List.mem_cons_of_mem _ hn))
    refine ⟨(outputPath cfg.outputDir names[i] cfg.suffix,
        ((parse s).toOption).getD content) :: nf, ?_, ?_⟩
    · rw [hstep, hrec]
      congr 1
      simp
    · simp only [hdrop, List.map_cons, hmap]

/-! Concrete fixtures for counterexamples and witnesses. -/

/-- Filesystem in which every create and write succeeds. -/
def allOkFs : String → Bool := fun _ => true

/-- The starting run state. -/
def st0 : RunState := ⟨[], [], 0, 0⟩

/-- A readable jpg input named a. -/
def fileA : ImgFile := ⟨"a", some "jpg", true, "", "A"⟩

/-- A readable jpg input named b. -/
def fileB : ImgFile := ⟨"b", some "jpg", true, "", "B"⟩

/-- A readable png input named c. -/
def fileC : ImgFile := ⟨"c", some "png", true, "", "C"⟩

/-- A jpg input named d that cannot be opened. -/
def fileBad : ImgFile := ⟨"d", some "jpg", false, "no such file", "X"⟩

/-- Batch size 2, no schema, empty suffix, output directory out. -/
def cfgC1 : Config := ⟨false, false, 2, "", "out"⟩

/-- Batch size 1, no schema, empty suffix, output directory out. -/
def cfgOne : Config := ⟨false, false, 1, "", "out"⟩

/-- Batch size 1 with a schema requested. -/
def cfgSchema : Config := ⟨true, false, 1, "", "out"⟩

/-- Batch size 1 with skip-existing enabled. -/
def cfgSkip : Config := ⟨false, true, 1, "", "out"⟩

/-- A single-message response whose content is the string hi. -/
def respMsg : Json := .obj [("message", .obj [("content", .str "hi")])]

/-- A response with neither a messages nor a message field. -/
def respRaw : Json := .obj [("done", .bool true)]

/-- A single-message response whose content is the string not json. -/
def respNJ : Json :=
  .obj [("message", .obj [("content", .str "not json")])]

/-- A response whose messages field is present but not an array. -/
def respBadMsgs : Json := .obj [("messages", .str "nope")]

/-- A concrete text parser: the endpoint body BODY parses to the given
response; every other string (in particular hi and not json) is not
valid JSON and fails to parse. -/
def parseFix (r : Json) : String → Except String Json :=
  fun s => if s = "BODY" then .ok r else .error "expected value"

/-- An endpoint that always answers 200 with body BODY, over a fully
writable filesystem with no pre-existing outputs. -/
def okWorld : World :=
  ⟨[], fun _ => .httpResp "200 OK" true "BODY", allOkFs, allOkFs⟩

/-- An endpoint that always answers 500 with body internal error. -/
def errWorld : World :=
  ⟨[], fun _ => .httpResp "500 Internal Server Error" false "internal error",
   allOkFs, allOkFs⟩

/-- Same endpoint as okWorld but File::create always fails. -/
def noCreateWorld : World :=
  ⟨[], fun _ => .httpResp "200 OK" true "BODY", fun _ => false, allOkFs⟩

/-- Same endpoint as okWorld but write_all always fails while
File::create succeeds. -/
def noWriteWorld : World :=
  ⟨[], fun _ => .httpResp "200 OK" true "BODY", allOkFs, fun _ => false⟩

/-! The claims. -/

/-- C3: evaluating the Image Codec on a readable file of each
extension: jpg, jpeg (case-insensitively), png, bmp and gif succeed
with the media types of the fixed table, and an absent or unknown
extension fails with an unsupported-extension error — but webp, despite
being in the discovery filter set supportedExt, also fails with the
unsupported-extension error instead of succeeding with image/webp as
the claim states. -/
theorem C3_codec_table :
    encode_image_to_base64 ⟨"x", some "jpg", true, "", "B"⟩ =
      .ok ("B", "image/jpeg") ∧
    encode_image_to_base64 ⟨"x", some "JPeG", true, "", "B"⟩ =
      .ok ("B", "image/jpeg") ∧
    encode_image_to_base64 ⟨"x", some "png", true, "", "B"⟩ =
      .ok ("B", "image/png") ∧
    encode_image_to_base64 ⟨"x", some "bmp", true, "", "B"⟩ =
      .ok ("B", "image/bmp") ∧
    encode_image_to_base64 ⟨"x", some "gif", true, "", "B"⟩ =
      .ok ("B", "image/gif") ∧
    supportedExt.contains "webp" = true ∧
    encode_image_to_base64 ⟨"x", some "webp", true, "", "B"⟩ =
      .error "Unsupported image extension: .webp" ∧
    encode_image_to_base64 ⟨"x", none, true, "", "B"⟩ =
      .error "Unsupported image extension: ." ∧
    encode_image_to_base64 ⟨"x", some "tiff", true, "", "B"⟩ =
      .error "Unsupported image extension: .tiff" :=
  ⟨rfl, rfl, rfl, rfl, rfl, rfl, rfl, rfl, rfl⟩

/-- C7: for every batch size of at least 1 and every file list, the
chunking used by the orchestrator yields ceil(N/B) batches, each of
length at most B, whose concatenation is exactly the input list. -/
theorem C7_partition (b : Nat) (hb : 1 ≤ b) (files : List ImgFile) :
    (chunksList b files).length = (files.length + b - 1) / b ∧
    (∀ c ∈ chunksList b files, c.length ≤ b) ∧
    (chunksList b files).flatten = files :=
  ⟨chunksList_length b hb files, chunksList_mem_length b hb files,
   chunksList_flatten b files⟩

/-- Witness instantiating C7 at batch size 2 on a three-file list. -/
theorem C7_partition_witness :
    1 ≤ 2 ∧
      ((chunksList 2 [fileA, fileB, fileC]).length =
          ([fileA, fileB, fileC].length + 2 - 1) / 2 ∧
        (∀ c ∈ chunksList 2 [fileA, fileB, fileC], c.length ≤ 2) ∧
        (chunksList 2 [fileA, fileB, fileC]).flatten =
          [fileA, fileB, fileC]) :=
  ⟨by omega, C7_partition 2 (by omega) [fileA, fileB, fileC]⟩

/-- C9: skip-existing is idempotent. When a first run with skip-existing
enabled has written an output file at the computed path for every file
it discovered, and all previously existing outputs persist, a second
discovery pass with skip-existing enabled over the same entries selects
no files: the path the skip filter checks is the very path the writer
used. -/
theorem C9_skip_idempotent (cfg : Config) (hskip : cfg.skipExisting = true)
    (entries : List ImgFile) (existing1 existing2 : List String)
    (hpersist : ∀ p ∈ existing1, p ∈ existing2)
    (hwritten : ∀ f ∈ discoverFiles cfg existing1 entries,
        outputPath cfg.outputDir f.stem cfg.suffix ∈ existing2) :
    discoverFiles cfg existing2 entries = [] := by
  unfold discoverFiles at hwritten ⊢
  rw [List.filter_eq_nil_iff]
  intro f hf hpred
  cases hext : f.ext with
  | none =>
    rw [hext] at hpred
    simp at hpred
  | some e =>
    rw [hext] at hpred
    simp only [hskip, Bool.not_true, Bool.false_or, Bool.and_eq_true,
      Bool.not_eq_true] at hpred
    obtain ⟨hsupp, hnot2⟩ := hpred
    have hmem2 : outputPath cfg.outputDir f.stem cfg.suffix ∈ existing2 := by
      by_cases h1 :
          existing1.contains (outputPath cfg.outputDir f.stem cfg.suffix) = true
      · exact hpersist _ (by simpa using h1)
      · refine hwritten f (List.mem_filter.mpr ⟨hf, ?_⟩)
        rw [hext]
        simp only [hskip, Bool.not_true, Bool.false_or, Bool.and_eq_true,
          Bool.not_eq_true]
        exact ⟨hsupp, by simpa using h1⟩
    rw [(by simpa using hmem2 :
      existing2.contains (outputPath cfg.outputDir f.stem cfg.suffix) = true)]
      at hnot2
    exact absurd hnot2 (by simp)

/-- Witness instantiating C9: one jpg entry, first run discovers it and
writes out/a.json; the second discovery selects nothing. -/
theorem C9_skip_idempotent_witness :
    cfgSkip.skipExisting = true ∧
    (∀ p ∈ ([] : List String), p ∈ ["out/a.json"]) ∧
    (∀ f ∈ discoverFiles cfgSkip [] [fileA],
        outputPath cfgSkip.outputDir f.stem cfgSkip.suffix ∈ ["out/a.json"]) ∧
    discoverFiles cfgSkip ["out/a.json"] [fileA] = [] :=
  ⟨rfl, (by intro p hp; cases hp), (by decide),
   C9_skip_idempotent cfgSkip rfl [fileA] [] ["out/a.json"]
     (by intro p hp; cases hp) (by decide)⟩

/-- C1 fails as stated: both images of a two-image batch encode, the
call succeeds, but the single-message response yields only one content
value; the run completes having written a file for image a only, with
no log at all — image b gets neither an output file nor a logged error,
contradicting the exactly-one-terminal-outcome claim precisely in the
fewer-content-values case it includes. -/
theorem C1_counterexample :
    runPipeline (parseFix respMsg) cfgC1 okWorld [fileA, fileB] =
      .completed ⟨[("out/a.json", Json.str "hi")], [], 2, 1⟩ := rfl

/-- C1 amended: one terminal outcome per discovered, non-skipped image
holds only under the extra condition that every batch call that happens
returns exactly one string content value per successfully encoded image
(and the filesystem accepts the writes): then the batch step writes one
file, at its computed path, per image that encoded, logs exactly one
encode error per image that did not, and the file and error counts sum
to the batch length. -/
theorem C1_amended (parse : String → Except String Json) (cfg : Config)
    (w : World) (batch : List ImgFile) (st : RunState) (resp : Json)
    (hcall : call_ollama_structured parse (w.replies st.callIdx) =
      ([], .ok resp))
    (hlen : (extractContents resp).length = (encodePhase batch).names.length)
    (hstr : ∀ c ∈ extractContents resp, (Json.asStr c).isSome = true)
    (hfs : ∀ n ∈ (encodePhase batch).names,
      w.createOk (outputPath cfg.outputDir n cfg.suffix) = true ∧
      w.writeOk (outputPath cfg.outputDir n cfg.suffix) = true) :
    ∃ st2 newFiles,
      processBatch parse cfg w batch st = .ok st2 ∧
      st2.written = st.written ++ newFiles ∧
      newFiles.map Prod.fst = (encodePhase batch).names.map
        (fun n => outputPath cfg.outputDir n cfg.suffix) ∧
      st2.logs = st.logs ++ (encodePhase batch).logs ∧
      (encodePhase batch).names.length + (encodePhase batch).logs.length
        = batch.length := by
  obtain ⟨wr, lg, pg, ci⟩ := st
  cases hemp : (encodePhase batch).images.isEmpty with
  | true =>
    have hn : (encodePhase batch).names = [] := by
      have h1 := encodePhase_images_names batch
      have h2 : (encodePhase batch).images = [] := List.isEmpty_iff.mp hemp
      rw [h2] at h1
      exact List.eq_nil_of_length_eq_zero h1.symm
    have hpb : processBatch parse cfg w batch ⟨wr, lg, pg, ci⟩ =
        .ok ⟨wr, lg ++ (encodePhase batch).logs,
             pg + (encodePhase batch).incs, ci⟩ := by
      simp [processBatch, hemp]
    exact ⟨_, [], hpb, by simp, (by rw [hn]; simp), rfl,
      encodePhase_count batch⟩
  | false =>
    obtain ⟨nf, hwl, hmap⟩ := writeLoop_all_ok parse cfg w
      (encodePhase batch).names (extractContents resp) 0
      ⟨wr, lg ++ (encodePhase batch).logs,
       pg + (encodePhase batch).incs, ci + 1⟩
      (by omega) hstr (by simpa using hfs)
    refine ⟨⟨wr ++ nf, lg ++ (encodePhase batch).logs,
        pg + (encodePhase batch).incs + batch.length, ci + 1⟩, nf,
      ?_, rfl, (by simpa using hmap), rfl, encodePhase_count batch⟩
    simp only [processBatch, hemp, hcall]
    simp only [Bool.false_eq_true, if_false, List.append_nil]
    rw [hwl]

/-- Witness instantiating C1 amended: one jpg file, a one-message
response with string content, all hypotheses discharged concretely. -/
theorem C1_amended_witness :
    (∀ c ∈ extractContents respMsg, (Json.asStr c).isSome = true) ∧
    ∃ st2 newFiles,
      processBatch (parseFix respMsg) cfgOne okWorld [fileA] st0 = .ok st2 ∧
      st2.written = st0.written ++ newFiles ∧
      newFiles.map Prod.fst = (encodePhase [fileA]).names.map
        (fun n => outputPath cfgOne.outputDir n cfgOne.suffix) ∧
      st2.logs = st0.logs ++ (encodePhase [fileA]).logs ∧
      (encodePhase [fileA]).names.length + (encodePhase [fileA]).logs.length
        = [fileA].length :=
  ⟨by decide,
   C1_amended (parseFix respMsg) cfgOne okWorld [fileA] st0 respMsg rfl rfl
     (by decide) (by decide)⟩

/-- C2 fails on the code: of two discovered items, one fails at the
encode stage (logged, pb.inc(1)) and one succeeds; the final batch
pb.inc(batch.len()) then counts the failed item a second time, so the
run ends with the progress counter at 3 although only 2 items were
discovered — the counter exceeds the discovered item count. -/
theorem C2_progress_overcount :
    runPipeline (parseFix respMsg) cfgC1 okWorld [fileBad, fileB] =
      .completed ⟨[("out/b.json", Json.str "hi")],
        [.errorLog "Error encoding d.jpg: Failed to open file: no such file"],
        3, 1⟩ ∧
    (discoverFiles cfgC1 okWorld.existingOutputs [fileBad, fileB]).length
      = 2 :=
  ⟨rfl, rfl⟩

/-- C4 fails as stated: a writer failure is not caught at the item
boundary — when File::create fails for the single item of a batch, the
run aborts through the expect panic instead of logging and continuing. -/
theorem C4_counterexample :
    runPipeline (parseFix respMsg) cfgOne noCreateWorld [fileA] =
      .panicked ⟨[], [], 0, 1⟩ "Failed to create output file" := rfl

/-- The encode loop logs exactly one error, naming the failing path
and its error text, per item that fails to encode, and nothing else. -/
theorem encodePhase_logs_eq (batch : List ImgFile) :
    (encodePhase batch).logs = batch.filterMap (fun f =>
      match encode_image_to_base64 f with
      | .ok _ => none
      | .error e =>
        some (.errorLog ("Error encoding " ++ displayPath f ++ ": " ++ e))) := by
  induction batch with
  | nil => rfl
  | cons f rest ih =>
    simp only [encodePhase, List.filterMap_cons]
    cases h : encode_image_to_base64 f with
    | ok v =>
      cases v
      simpa using ih
    | error e => simpa using ih

/-- A batch whose encode phase produced at least one name also produced
at least one payload, so the empty-images continue is not taken. -/
theorem encodePhase_images_ne_of_names (batch : List ImgFile) (n : String)
    (ns : List String) (hn : (encodePhase batch).names = n :: ns) :
    (encodePhase batch).images.isEmpty = false := by
  have h1 := encodePhase_images_names batch
  rw [hn] at h1
  cases himg : (encodePhase batch).images with
  | nil =>
    rw [himg] at h1
    simp at h1
  | cons g gs => simp

/-- C4 amended: encoder failures and inference-client failures are
caught at the item or batch-call boundary, logged, and the run
continues with the remaining batches; output-writer failures are NOT
caught — a failing File::create or a failing write_all panics and
terminates the process. Part one: a failing endpoint call leaves the
batch step returning normally with the client error logged after the
encode-stage error logs, progress advanced, and the batch fold
continuing with the next batch. Part two: when the call succeeds and
the writes go through, the batch step returns normally, its log
extended by exactly one error naming each item that failed to encode.
Part three: a failing File::create aborts the batch step with the
create panic. Part four: a failing write_all aborts it with the write
panic. -/
theorem C4_error_isolation (parse : String → Except String Json)
    (cfg : Config) (w : World) (batch : List ImgFile) (st : RunState) :
    (∀ clogs e rest,
      (encodePhase batch).images.isEmpty = false →
      call_ollama_structured parse (w.replies st.callIdx) =
        (clogs, .error e) →
      processBatch parse cfg w batch st = .ok
        { st with
            logs := ((st.logs ++ (encodePhase batch).logs) ++ clogs) ++
              [.errorLog ("Error processing batch: " ++ e)],
            progress := st.progress + (encodePhase batch).incs +
              batch.length,
            callIdx := st.callIdx + 1 } ∧
      runBatches parse cfg w (batch :: rest) st =
        runBatches parse cfg w rest
          { st with
              logs := ((st.logs ++ (encodePhase batch).logs) ++ clogs) ++
                [.errorLog ("Error processing batch: " ++ e)],
              progress := st.progress + (encodePhase batch).incs +
                batch.length,
              callIdx := st.callIdx + 1 }) ∧
    (∀ resp,
      call_ollama_structured parse (w.replies st.callIdx) =
        ([], .ok resp) →
      (extractContents resp).length = (encodePhase batch).names.length →
      (∀ c ∈ extractContents resp, (Json.asStr c).isSome = true) →
      (∀ n ∈ (encodePhase batch).names,
        w.createOk (outputPath cfg.outputDir n cfg.suffix) = true ∧
        w.writeOk (outputPath cfg.outputDir n cfg.suffix) = true) →
      ∃ st2, processBatch parse cfg w batch st = .ok st2 ∧
        st2.logs = st.logs ++ (encodePhase batch).logs ∧
        (encodePhase batch).logs = batch.filterMap (fun f =>
          match encode_image_to_base64 f with
          | .ok _ => none
          | .error e =>
            some (.errorLog
              ("Error encoding " ++ displayPath f ++ ": " ++ e)))) ∧
    (∀ resp n ns c cs,
      call_ollama_structured parse (w.replies st.callIdx) =
        ([], .ok resp) →
      (encodePhase batch).names = n :: ns →
      extractContents resp = c :: cs →
      w.createOk (outputPath cfg.outputDir n cfg.suffix) = false →
      ∃ stp, processBatch parse cfg w batch st =
        .error (stp, "Failed to create output file")) ∧
    (∀ resp n ns s cs,
      call_ollama_structured parse (w.replies st.callIdx) =
        ([], .ok resp) →
      (encodePhase batch).names = n :: ns →
      extractContents resp = Json.str s :: cs →
      w.createOk (outputPath cfg.outputDir n cfg.suffix) = true →
      w.writeOk (outputPath cfg.outputDir n cfg.suffix) = false →
      ∃ stp, processBatch parse cfg w batch st =
        .error (stp, "Failed to write output file")) := by
  obtain ⟨wr, lg, pg, ci⟩ := st
  refine ⟨?_, ?_, ?_, ?_⟩
  · intro clogs e rest hemp hcall
    have hpb : processBatch parse cfg w batch ⟨wr, lg, pg, ci⟩ = .ok
        ⟨wr, ((lg ++ (encodePhase batch).logs) ++ clogs) ++
            [.errorLog ("Error processing batch: " ++ e)],
          pg + (encodePhase batch).incs + batch.length, ci + 1⟩ := by
      simp only [processBatch, hemp, Bool.false_eq_true, if_false, hcall]
    exact ⟨hpb, by simp only [runBatches, hpb]⟩
  · intro resp hcall hlen hstr hfs
    cases hemp : (encodePhase batch).images.isEmpty with
    | true =>
      refine ⟨⟨wr, lg ++ (encodePhase batch).logs,
        pg + (encodePhase batch).incs, ci⟩, ?_, rfl,
        encodePhase_logs_eq batch⟩
      simp [processBatch, hemp]
    | false =>
      obtain ⟨nf, hwl, hmap⟩ := writeLoop_all_ok parse cfg w
        (encodePhase batch).names (extractContents resp) 0
        ⟨wr, lg ++ (encodePhase batch).logs,
         pg + (encodePhase batch).incs, ci + 1⟩
        (by omega) hstr (by simpa using hfs)
      refine ⟨⟨wr ++ nf, lg ++ (encodePhase batch).logs,
          pg + (encodePhase batch).incs + batch.length, ci + 1⟩,
        ?_, rfl, encodePhase_logs_eq batch⟩
      simp only [processBatch, hemp, hcall]
      simp only [Bool.false_eq_true, if_false, List.append_nil]
      rw [hwl]
  · intro resp n ns c cs hcall hn hc1 hcreate
    have hemp := encodePhase_images_ne_of_names batch n ns hn
    refine ⟨⟨wr, lg ++ (encodePhase batch).logs,
      pg + (encodePhase batch).incs, ci + 1⟩, ?_⟩
    simp only [processBatch, hemp, Bool.false_eq_true, if_false, hcall,
      hn, hc1]
    simp only [writeLoop, List.get?, resolveOutput_eq, hcreate,
      List.append_nil]
    simp
  · intro resp n ns s cs hcall hn hc1 hcreate hwrite
    have hemp := encodePhase_images_ne_of_names batch n ns hn
    refine ⟨⟨wr, lg ++ (encodePhase batch).logs,
      pg + (encodePhase batch).incs, ci + 1⟩, ?_⟩
    simp only [processBatch, hemp, Bool.false_eq_true, if_false, hcall,
      hn, hc1]
    simp only [writeLoop, List.get?, resolveOutput_eq, Json.asStr,
      hcreate, hwrite, List.append_nil]
    simp

/-- Witness instantiating C4 amended: parts one and two run a batch
containing a genuinely failing encode (fileBad) alongside a good file,
against the 500-error endpoint and the healthy endpoint respectively;
parts three and four use the create-refusing and the write-refusing
filesystems. -/
theorem C4_error_isolation_witness :
    (processBatch (parseFix respMsg) cfgC1 errWorld [fileBad, fileB] st0 =
      .ok
        { st0 with
            logs := ((st0.logs ++ (encodePhase [fileBad, fileB]).logs) ++
                [.errorLog ("Server said: " ++ "internal error")]) ++
              [.errorLog ("Error processing batch: " ++
                ("HTTP error: " ++ "500 Internal Server Error"))],
            progress := st0.progress + (encodePhase [fileBad, fileB]).incs +
              [fileBad, fileB].length,
            callIdx := st0.callIdx + 1 } ∧
      runBatches (parseFix respMsg) cfgC1 errWorld [[fileBad, fileB]] st0 =
        runBatches (parseFix respMsg) cfgC1 errWorld []
          { st0 with
              logs := ((st0.logs ++ (encodePhase [fileBad, fileB]).logs) ++
                  [.errorLog ("Server said: " ++ "internal error")]) ++
                [.errorLog ("Error processing batch: " ++
                  ("HTTP error: " ++ "500 Internal Server Error"))],
              progress := st0.progress +
                (encodePhase [fileBad, fileB]).incs +
                [fileBad, fileB].length,
              callIdx := st0.callIdx + 1 }) ∧
    (∃ st2,
      processBatch (parseFix respMsg) cfgC1 okWorld [fileBad, fileB] st0 =
        .ok st2 ∧
      st2.logs = st0.logs ++ (encodePhase [fileBad, fileB]).logs ∧
      (encodePhase [fileBad, fileB]).logs =
        [fileBad, fileB].filterMap (fun f =>
          match encode_image_to_base64 f with
          | .ok _ => none
          | .error e =>
            some (.errorLog
              ("Error encoding " ++ displayPath f ++ ": " ++ e)))) ∧
    (∃ stp, processBatch (parseFix respMsg) cfgOne noCreateWorld [fileA] st0 =
      .error (stp, "Failed to create output file")) ∧
    (∃ stp, processBatch (parseFix respMsg) cfgOne noWriteWorld [fileA] st0 =
      .error (stp, "Failed to write output file")) :=
  ⟨(C4_error_isolation (parseFix respMsg) cfgC1 errWorld [fileBad, fileB]
      st0).1 [.errorLog ("Server said: " ++ "internal error")]
      ("HTTP error: " ++ "500 Internal Server Error") [] rfl rfl,
   (C4_error_isolation (parseFix respMsg) cfgC1 okWorld [fileBad, fileB]
      st0).2.1 respMsg rfl rfl (by decide) (by decide),
   (C4_error_isolation (parseFix respMsg) cfgOne noCreateWorld [fileA]
      st0).2.2.1 respMsg "a" [] (Json.str "hi") [] rfl rfl rfl rfl,
   (C4_error_isolation (parseFix respMsg) cfgOne noWriteWorld [fileA]
      st0).2.2.2 respMsg "a" [] "hi" [] rfl rfl rfl rfl rfl⟩

/-- C5 fails as stated: when the response has neither a messages nor a
message field, the whole response (an object, not a string) becomes the
content value, and the Output Writer panics at as_str().unwrap()
instead of persisting the literal value — the run aborts. -/
theorem C5_counterexample :
    runPipeline (parseFix respRaw) cfgOne okWorld [fileA] =
      .panicked ⟨[], [], 0, 1⟩ "called Option::unwrap on a None value" := rfl

/-- C5 amended: for a content value that IS a string, the Writer
terminates normally and persists the re-parse of that string when it
parses as JSON and the literal string otherwise; for a content value
that is NOT a string (as in the whole-response fallback), the Writer
panics at as_str().unwrap() and the process aborts. -/
theorem C5_writer_step (parse : String → Except String Json) (cfg : Config)
    (w : World) (names : List String) (rest : List Json) (i : Nat)
    (st : RunState) (name : String)
    (hname : names.get? i = some name) :
    (∀ s, w.createOk (outputPath cfg.outputDir name cfg.suffix) = true →
      w.writeOk (outputPath cfg.outputDir name cfg.suffix) = true →
      writeLoop parse cfg w names (Json.str s :: rest) i st =
        writeLoop parse cfg w names rest (i + 1)
          { st with written := st.written ++
              [(outputPath cfg.outputDir name cfg.suffix,
                ((parse s).toOption).getD (Json.str s))] }) ∧
    (∀ content, content.asStr = none →
      w.createOk (outputPath cfg.outputDir name cfg.suffix) = true →
      writeLoop parse cfg w names (content :: rest) i st =
        .error (st, "called Option::unwrap on a None value")) := by
  obtain ⟨wr, lg, pg, ci⟩ := st
  constructor
  · intro s hc hw
    simp only [writeLoop, hname, resolveOutput_eq, Json.asStr, hc, hw,
      List.append_nil]
    simp
  · intro content hna hc
    simp only [writeLoop, hname, resolveOutput_eq, hna, hc,
      List.append_nil]
    simp

/-- Witness instantiating C5 amended: the string content hi is
persisted literally (it does not re-parse), and the object content
respRaw panics. -/
theorem C5_writer_step_witness :
    (writeLoop (parseFix respMsg) cfgOne okWorld ["a"]
        [Json.str "hi"] 0 st0 =
      writeLoop (parseFix respMsg) cfgOne okWorld ["a"] [] 1
        { st0 with written := st0.written ++
            [(outputPath cfgOne.outputDir "a" cfgOne.suffix,
              (((parseFix respMsg) "hi").toOption).getD (Json.str "hi"))] }) ∧
    (writeLoop (parseFix respMsg) cfgOne okWorld ["a"] [respRaw] 0 st0 =
      .error (st0, "called Option::unwrap on a None value")) :=
  ⟨(C5_writer_step (parseFix respMsg) cfgOne okWorld ["a"] [] 0 st0 "a"
      rfl).1 "hi" rfl rfl,
   (C5_writer_step (parseFix respMsg) cfgOne okWorld ["a"] [] 0 st0 "a"
      rfl).2 respRaw rfl rfl⟩

/-- C6 on the failing input: with a schema requested and the model
content being the string not json, the persisted file does contain the
JSON string not json, but NO warning is logged — the log list stays
empty — because from_value::<Value> (fromValueValue) succeeds for every
value, making the warning arm dead code. -/
theorem C6_no_warning :
    runPipeline (parseFix respNJ) cfgSchema okWorld [fileA] =
      .completed ⟨[("out/a.json", Json.str "not json")], [], 1, 1⟩ ∧
    (∀ v : Json, fromValueValue v = .ok v) :=
  ⟨rfl, fun _ => rfl⟩

/-- C8 fails as stated: on a non-success status the returned failure
does not carry the response body — the result is identical for two
different bodies, and equals an error mentioning only the status line.
The body is only logged. -/
theorem C8_counterexample :
    (call_ollama_structured (parseFix respMsg)
        (.httpResp "500 Internal Server Error" false "internal error")).2 =
      (call_ollama_structured (parseFix respMsg)
        (.httpResp "500 Internal Server Error" false "a different body")).2 ∧
    (call_ollama_structured (parseFix respMsg)
        (.httpResp "500 Internal Server Error" false "internal error")).2 =
      .error "HTTP error: 500 Internal Server Error" :=
  ⟨rfl, rfl⟩

/-- C8 amended: on a non-success HTTP status the client logs the raw
body (Server said) and returns a failure carrying the status line; the
batch step writes no output file for any item of the call, logs the
batch error, advances progress by the batch length, and the run
continues with the next batch. -/
theorem C8_server_error (parse : String → Except String Json) (cfg : Config)
    (w : World) (batch : List ImgFile) (rest : List (List ImgFile))
    (st : RunState) (sl body : String)
    (hreply : w.replies st.callIdx = .httpResp sl false body)
    (hok : ∀ f ∈ batch, isOkResult (encode_image_to_base64 f) = true)
    (hne : batch ≠ []) :
    processBatch parse cfg w batch st = .ok
      { st with
          logs := st.logs ++
            [.errorLog ("Server said: " ++ body),
             .errorLog ("Error processing batch: " ++ ("HTTP error: " ++ sl))],
          progress := st.progress + batch.length,
          callIdx := st.callIdx + 1 } ∧
    runBatches parse cfg w (batch :: rest) st =
      runBatches parse cfg w rest
        { st with
            logs := st.logs ++
              [.errorLog ("Server said: " ++ body),
               .errorLog ("Error processing batch: " ++ ("HTTP error: " ++ sl))],
            progress := st.progress + batch.length,
            callIdx := st.callIdx + 1 } := by
  obtain ⟨wr, lg, pg, ci⟩ := st
  have henc := encodePhase_all_ok batch hok
  have hemp : (encodePhase batch).images.isEmpty = false := by
    rw [henc]
    cases batch with
    | nil => exact absurd rfl hne
    | cons g gs => simp
  have hpb : processBatch parse cfg w batch ⟨wr, lg, pg, ci⟩ = .ok
      ⟨wr, lg ++
          [.errorLog ("Server said: " ++ body),
           .errorLog ("Error processing batch: " ++ ("HTTP error: " ++ sl))],
        pg + batch.length, ci + 1⟩ := by
    simp only [processBatch, hemp, Bool.false_eq_true, if_false, henc,
      hreply, call_ollama_structured]
    simp [hne]
  refine ⟨hpb, ?_⟩
  simp only [runBatches, hpb]

/-- Witness instantiating C8 amended at the 500-error endpoint with one
jpg file and an empty tail of batches. -/
theorem C8_server_error_witness :
    processBatch (parseFix respMsg) cfgOne errWorld [fileA] st0 = .ok
      { st0 with
          logs := st0.logs ++
            [.errorLog ("Server said: " ++ "internal error"),
             .errorLog ("Error processing batch: " ++
               ("HTTP error: " ++ "500 Internal Server Error"))],
          progress := st0.progress + [fileA].length,
          callIdx := st0.callIdx + 1 } ∧
    runBatches (parseFix respMsg) cfgOne errWorld [[fileA]] st0 =
      runBatches (parseFix respMsg) cfgOne errWorld []
        { st0 with
            logs := st0.logs ++
              [.errorLog ("Server said: " ++ "internal error"),
               .errorLog ("Error processing batch: " ++
                 ("HTTP error: " ++ "500 Internal Server Error"))],
            progress := st0.progress + [fileA].length,
            callIdx := st0.callIdx + 1 } :=
  C8_server_error (parseFix respMsg) cfgOne errWorld [fileA] [] st0
    "500 Internal Server Error" "internal error" rfl (by decide) (by simp)

/-- C10: when a successful response has a messages field that is not an
array, the extractor yields the empty content list — the message and
whole-response fallbacks are not consulted — so the batch step writes
no file and logs nothing, yet progress still advances by the full batch
length. -/
theorem C10_messages_not_array (parse : String → Except String Json)
    (cfg : Config) (w : World) (batch : List ImgFile) (st : RunState)
    (resp m : Json)
    (hok : ∀ f ∈ batch, isOkResult (encode_image_to_base64 f) = true)
    (hne : batch ≠ [])
    (hcall : call_ollama_structured parse (w.replies st.callIdx) =
      ([], .ok resp))
    (hmsg : resp.get "messages" = some m)
    (harr : m.isArr = false) :
    extractContents resp = [] ∧
    processBatch parse cfg w batch st = .ok
      { st with
          progress := st.progress + batch.length,
          callIdx := st.callIdx + 1 } := by
  have hext : extractContents resp = [] := by
    unfold extractContents
    rw [hmsg]
    cases m <;> simp_all [Json.isArr]
  refine ⟨hext, ?_⟩
  obtain ⟨wr, lg, pg, ci⟩ := st
  have henc := encodePhase_all_ok batch hok
  have hemp : (encodePhase batch).images.isEmpty = false := by
    rw [henc]
    cases batch with
    | nil => exact absurd rfl hne
    | cons g gs => simp
  simp only [processBatch, hemp, Bool.false_eq_true, if_false, hcall,
    hext, henc]
  simp [writeLoop, hne]

/-- Witness instantiating C10 at a response whose messages field is the
string nope. -/
theorem C10_messages_not_array_witness :
    extractContents respBadMsgs = [] ∧
    processBatch (parseFix respBadMsgs) cfgOne okWorld [fileA] st0 = .ok
      { st0 with
          progress := st0.progress + [fileA].length,
          callIdx := st0.callIdx + 1 } :=
  C10_messages_not_array (parseFix respBadMsgs) cfgOne okWorld [fileA] st0
    respBadMsgs (Json.str "nope") (by decide) (by simp) rfl rfl rfl
